import Mathlib

/-!
Verification of the arkview export pipeline (src/common/exporter.py,
src/common/utils.py) via a shallow embedding in Lean.

Conventions of the embedding:
* Python sets and dicts are modelled as lists (membership / association
  lookup); insertion order is kept where the code relies on it.
* File modification times are modelled as integers (the code compares
  them through `int(...)`).
* The `md5` content hash is modelled as a parameter `h : String → String`
  applied to the exact pre-image string the code builds
  (`f"{tribe_id}{entry}"`); theorems that need distinct digests take the
  needed inequalities as hypotheses, and witnesses instantiate `h` with
  the identity function.
-/

/-! ## Log Deduplicator: `_precache` inside `load_outputs` (exporter.py 254-279)

A record of the "tribelogs" dataset is a JSON object that may carry a
`tribeid` field and a `logs` list; other fields are irrelevant to the
transformation and are not modelled.  `tribeid = none` models a missing
key (`i.get("tribeid")` returning `None`); Python truthiness makes the
code also skip a `tribeid` equal to `0`. -/

structure TribeRecord where
  tribeid : Option Int
  logs : Option (List String)
  deriving Repr, DecidableEq

/-- Python truthiness of `i.get("tribeid")`: `None` and `0` are falsy. -/
def truthyId : Option Int → Bool
  | none => false
  | some n => n != 0

/-- The string hashed by the code: `f"{tribe_id}{entry}"`. -/
def tribeKey (tid : Int) (entry : String) : String :=
  toString tid ++ entry

/-- Inner loop of `_precache` over one record's `logs` list: returns the
updated seen-set (`cache.tribelog_buffer`) and the retained `new_logs`,
in original order.  A key already seen is skipped; a fresh key is added
to the seen-set and the entry is retained unless `first_run`. -/
def processLogs (h : String → String) (first_run : Bool) (tid : Int) :
    List String → List String → List String × List String
  | [], seen => (seen, [])
  | e :: rest, seen =>
    let key := h (tribeKey tid e)
    if key ∈ seen then
      processLogs h first_run tid rest seen
    else
      let r := processLogs h first_run tid rest (key :: seen)
      (r.1, if first_run then r.2 else e :: r.2)

/-- Outer loop of `_precache` over `data["data"]`: a record without a
`logs` key or with a falsy `tribeid` is skipped (not appended to
`new_tribelog_payload`); a record whose `new_logs` ends up empty is
dropped; otherwise the record is kept with `logs` replaced. -/
def processRecords (h : String → String) (first_run : Bool) :
    List TribeRecord → List String → List String × List TribeRecord
  | [], seen => (seen, [])
  | i :: rest, seen =>
    match i.logs with
    | none => processRecords h first_run rest seen
    | some logs =>
      match i.tribeid with
      | none => processRecords h first_run rest seen
      | some tid =>
        if tid = 0 then processRecords h first_run rest seen
        else
          let r := processLogs h first_run tid logs seen
          let rr := processRecords h first_run rest r.1
          (rr.1, if r.2 = [] then rr.2 else { i with logs := some r.2 } :: rr.2)

/-- The `_precache` transformation on the `data["data"]` list: `first_run`
is decided by the seen-set (`cache.tribelog_buffer`) being empty at entry.
Returns the updated seen-set and the new payload list. -/
def precache (h : String → String) (seen : List String)
    (data : List TribeRecord) : List String × List TribeRecord :=
  let first_run := seen.isEmpty
  processRecords h first_run data seen

/-! ## Export Scheduler single-flight wrapper: `process_export` (exporter.py 72-80)

The cycle body `_process_export` is abstracted as an arbitrary function
`body` on the state which may also raise (second component `true`); the
wrapper checks `cache.syncing`, sets it in the `try`, and resets it in
the `finally` on every path, re-raising whatever the body raised. -/

structure SyncState (α : Type) where
  syncing : Bool
  rest : α
  deriving Repr, DecidableEq

/-- Model of `process_export`: returns the final state and whether an
exception escaped (the `finally` runs either way). -/
def process_export {α : Type} (body : SyncState α → SyncState α × Bool)
    (s : SyncState α) : SyncState α × Bool :=
  if s.syncing then (s, false)
  else
    let r := body { s with syncing := true }
    ({ r.1 with syncing := false }, r.2)

/-! ## Change Detector over the cluster directory: `scan_cluster_dir`
(exporter.py 19-49)

A cluster file is known by name, suffix (empty string when the file has
no extension) and integer mtime (`int(file.stat().st_mtime)`); the
tracking map `last_file_states` is an association list, `none` before
it has been seeded. -/

structure ClusterFile where
  name : String
  suffix : String
  mtime : Int
  deriving Repr, DecidableEq

/-- Lookup in the tracking map (`file.name in last_file_states`). -/
def lookupState (states : List (String × Int)) (n : String) : Option Int :=
  (states.find? (fun p => p.1 == n)).map (·.2)

/-- Seeding pass (`last_file_states is None` branch): record every
extension-less file's mtime. -/
def seedStates (files : List ClusterFile) : List (String × Int) :=
  (files.filter (fun f => f.suffix == "")).map (fun f => (f.name, f.mtime))

/-- Main scan loop: files with a suffix are skipped; an unknown file is
recorded and skipped; a known file whose mtime differs sets `modified`
and breaks out of the loop. Returns `(modified, states')`. -/
def scanFiles : List ClusterFile → List (String × Int) →
    Bool × List (String × Int)
  | [], states => (false, states)
  | f :: rest, states =>
    if f.suffix != "" then scanFiles rest states
    else
      match lookupState states f.name with
      | none => scanFiles rest (states ++ [(f.name, f.mtime)])
      | some m => if m != f.mtime then (true, states) else scanFiles rest states

/-- Model of `scan_cluster_dir`: inputs are whether `cache.cluster_dir`
is set and exists, the directory listing, and the current
`last_file_states`; returns the boolean result and the new map. -/
def scan_cluster_dir (clusterDirSet clusterDirExists : Bool)
    (files : List ClusterFile) (states : Option (List (String × Int))) :
    Bool × Option (List (String × Int)) :=
  if !clusterDirSet then (false, states)
  else if !clusterDirExists then (false, states)
  else
    match states with
    | none => (false, some (seedStates files))
    | some st =>
      let r := scanFiles files st
      (r.1, some r.2)

/-! ## Output Ingestor: per-file body of `load_outputs` (exporter.py 221-287)

One output file is known by its stem (name without the `.json`
extension), its size, and its raw content.  Parsing (`orjson.loads`) is
abstracted as a parameter `parse : String → Option π` (`none` models a
decode exception); Python truthiness of the parsed value is a parameter
`truthyP`; the tribelogs `_precache` step is a parameter `pre`.  The
model returns the number of parse attempts made together with the
updated `cache.exports` association list. -/

structure OutputFile where
  stem : String
  size : Nat
  content : String
  deriving Repr, DecidableEq

/-- Dataset key derivation: `export_file.stem.replace("ASV_", "").lower().strip()`. -/
def fileKey (stem : String) : String :=
  ((stem.replace "ASV_" "").toLower).trim

/-- Replacement of one key in `cache.exports` (`cache.exports[key] = dump`). -/
def setKey {π : Type} (m : List (String × π)) (k : String) (v : π) :
    List (String × π) :=
  if m.any (fun p => p.1 == k) then
    m.map (fun p => if p.1 == k then (k, v) else p)
  else m ++ [(k, v)]

/-- Lookup of one key in `cache.exports`. -/
def getKey {π : Type} (m : List (String × π)) (k : String) : Option π :=
  (m.find? (fun p => p.1 == k)).map (·.2)

/-- Model of the `load_outputs` loop body for a single output file.
The zero-size guard waits for the file to become non-empty; file
contents do not change in the model, so a zero-size file exhausts the
wait and is skipped with no parse attempt.  A decode failure
(`parse = none`) skips the file (`continue`), leaving `exports`
untouched; there is no retry, so a failing file sees exactly one parse
attempt.  A falsy parse result is also skipped.  Otherwise the
value (run through `pre` when the key is `"tribelogs"`) replaces the
cache entry for the key. -/
def loadFile {π : Type} (parse : String → Option π) (truthyP : π → Bool)
    (pre : π → π) (target : String) (exports : List (String × π))
    (f : OutputFile) : Nat × List (String × π) :=
  let key := fileKey f.stem
  if target != "" && target.toLower != key then (0, exports)
  else if f.size = 0 then (0, exports)
  else
    match parse f.content with
    | none => (1, exports)
    | some dump =>
      if !truthyP dump then (1, exports)
      else
        let dump := if key = "tribelogs" then pre dump else dump
        (1, setKey exports key dump)

/-! ## Path Validator: `validate_path` (utils.py 19-41)

The code rejects a string containing a space, then calls
`re.match(r"^[a-zA-Z0-9_\.:/\\]+", s)`.  `re.match` anchors only at the
start of the string, so the match succeeds precisely when the string is
non-empty and its first character lies in the class. -/

/-- Membership in the regex character class `[a-zA-Z0-9_\.:/\\]`. -/
def allowedChar (c : Char) : Bool :=
  ('a' ≤ c && c ≤ 'z') || ('A' ≤ c && c ≤ 'Z') || ('0' ≤ c && c ≤ '9')
    || c = '_' || c = '.' || c = ':' || c = '/' || c = '\\'

/-- Model of `validate_path` on the path string; the Python test
`" " in path_str` with a one-character needle is membership of the
space character in the string. -/
def validate_path (s : String) : Bool :=
  if ' ' ∈ s.data then false
  else
    match s.data with
    | [] => false
    | c :: _ => allowedChar c

/-! ## Affinity mask: `get_affinity_mask` (utils.py 174-192)

`os.cpu_count() or 1` is modelled by mapping a reported count of `0` to
`1`; the thread budget is a natural number.  The loop builds
`[1, 2, 4, ..., 2^(cpus-1)]`; `options[-threads:]` is the Python
negative-start slice (`threads = 0` yields the whole list); `hex`
renders `0x` followed by lowercase hex digits. -/

/-- The options-building loop: starts with `num = 1`, appends `num`,
doubling it on every later iteration. -/
def buildOptions (cpus : Nat) : List Nat :=
  ((List.range cpus).foldl
    (fun st _ =>
      if st.1 = [] then (st.1 ++ [st.2], st.2)
      else (st.1 ++ [st.2 * 2], st.2 * 2))
    ([], 1)).1

/-- Python slice `l[-k:]` for a natural `k`: the whole list when
`k = 0`, otherwise the last `min k (l.length)` elements. -/
def pySliceLast {α : Type} (l : List α) (k : Nat) : List α :=
  if k = 0 then l else l.drop (l.length - k)

/-- Python `hex` for naturals: `0x` plus lowercase hexadecimal digits. -/
def pyHex (n : Nat) : String :=
  "0x" ++ ⟨Nat.toDigits 16 n⟩

/-- Model of `get_affinity_mask`; `cpuCount` is what `os.cpu_count()`
reported (`0` standing for `None`). -/
def get_affinity_mask (threads cpuCount : Nat) : String :=
  let cpus := if cpuCount = 0 then 1 else cpuCount
  let t := if threads > cpus then cpus else threads
  let options := buildOptions cpus
  let options := pySliceLast options t
  let mask := if options ≠ [] then options.sum else 1
  pyHex mask

/-! ## Export cycle: `wipe_output` and `_process_export` (exporter.py 83-211)

The slice of `cache` and of the filesystem that `_process_export` reads
and writes.  Output files are kept as a plain name list so that the
`*.json` glob of `wipe_output` is visible; datasets in
`cache.exports` are abstracted to `Nat` payloads.  `map_last_modified`
is an integer mtime, `0` standing for the falsy initial `0.0`. -/

structure ExportState where
  mapFileExists : Bool
  mapFileMtime : Int
  exeFileExists : Bool
  clusterDirSet : Bool
  clusterDirExists : Bool
  reprocess : Bool
  map_last_modified : Int
  lastFileStates : Option (List (String × Int))
  clusterFiles : List ClusterFile
  outputFiles : List String
  exports : List (String × Nat)
  deriving Repr, DecidableEq

/-- Model of `wipe_output`: every `*.json` file in the output directory
is unlinked and `cache.exports` is cleared (clearing an already-empty
dict is also the empty dict). -/
def wipe_output (s : ExportState) : ExportState :=
  { s with
    outputFiles := s.outputFiles.filter (fun n => !n.endsWith ".json")
    exports := [] }

/-- Which return path `_process_export` took. `launched` means the
external tool invocation was reached. -/
inductive Outcome where
  | wiped
  | noExe
  | unchanged
  | launched
  deriving Repr, DecidableEq

/-- Everything from the baseline write `cache.map_last_modified =
map_file_modified` on: the launch `try` block (exceptions caught; a
missing pid returns before `load_outputs`), then the `load_outputs`
`try` block (exceptions caught).  The launch itself only touches the
filesystem and process table, abstracted away; `loadFn` abstracts the
effect of `load_outputs`, which mutates only `cache.exports` (and
scalars not modelled here); it is applied unless it raises
(`loadRaises`) or the pid never appeared (`appear = false` after a
non-raising launch, which returns early). -/
def runPhase (appear runRaises loadRaises : Bool)
    (loadFn : List String → List (String × Nat) → List (String × Nat))
    (s : ExportState) : ExportState × Outcome :=
  if !runRaises && !appear then
    ({ s with map_last_modified := s.mapFileMtime }, Outcome.launched)
  else if loadRaises then
    ({ s with map_last_modified := s.mapFileMtime }, Outcome.launched)
  else
    ({ s with map_last_modified := s.mapFileMtime,
              exports := loadFn s.outputFiles s.exports }, Outcome.launched)

/-- Model of `_process_export` (exporter.py 98-211): missing map file
wipes the output and returns; missing executable returns; then the
change check against `map_last_modified` (falsy `0` means first cycle),
falling back to `scan_cluster_dir` when the map file is unchanged and
cluster reprocessing is configured; a cycle that gets past the change
check records the baseline and launches. -/
def processExportBody (appear runRaises loadRaises : Bool)
    (loadFn : List String → List (String × Nat) → List (String × Nat))
    (s : ExportState) : ExportState × Outcome :=
  if !s.mapFileExists then (wipe_output s, Outcome.wiped)
  else if !s.exeFileExists then (s, Outcome.noExe)
  else
    if s.map_last_modified ≠ 0 ∧ s.map_last_modified = s.mapFileMtime then
      if s.reprocess ∧ s.clusterDirSet ∧ s.clusterDirExists then
        if !(scan_cluster_dir true true s.clusterFiles s.lastFileStates).1 then
          ({ s with lastFileStates :=
              (scan_cluster_dir true true s.clusterFiles s.lastFileStates).2 },
           Outcome.unchanged)
        else
          runPhase appear runRaises loadRaises loadFn
            { s with lastFileStates :=
                (scan_cluster_dir true true s.clusterFiles s.lastFileStates).2 }
      else (s, Outcome.unchanged)
    else runPhase appear runRaises loadRaises loadFn s

/-- One full scheduler tick: `process_export` wrapping the cycle body on
a state carrying the `syncing` flag (the body never lets an exception
escape: every raise inside `_process_export` is caught there). -/
def exportTick (appear runRaises loadRaises : Bool)
    (loadFn : List String → List (String × Nat) → List (String × Nat))
    (ss : SyncState ExportState) : SyncState ExportState × Bool :=
  process_export
    (fun st =>
      (⟨st.syncing, (processExportBody appear runRaises loadRaises loadFn st.rest).1⟩,
       false))
    ss

/-- Decides whether one record can contribute log entries to the
deduplication loop: a record without a `logs` list, with a falsy
`tribeid`, or with an empty `logs` list contributes none. -/
def contributesNoEntries (i : TribeRecord) : Bool :=
  match i.logs, i.tribeid with
  | none, _ => true
  | some _, none => true
  | some l, some tid => tid == 0 || l.isEmpty

/-- The three-cycle deduplication scenario of the spec, for one tribe
`t`: cycle 1 ingests entries `[A, B]` starting from an empty seen-set,
cycle 2 ingests `[A, B, C]`, cycle 3 ingests `[A, B, C, D]`, each cycle
continuing from the previous cycle's seen-set.  The property states the
retained payloads: none, exactly `C`, exactly `D`. -/
def c1Prop (h : String → String) (t : Int) (A B C D : String) : Prop :=
  let r1 := precache h [] [⟨some t, some [A, B]⟩]
  let r2 := precache h r1.1 [⟨some t, some [A, B, C]⟩]
  let r3 := precache h r2.1 [⟨some t, some [A, B, C, D]⟩]
  r1.2 = [] ∧ r2.2 = [⟨some t, some [C]⟩] ∧ r3.2 = [⟨some t, some [D]⟩]

/-! ## Helper lemmas about the Log Deduplicator -/

/-- The seen-set only grows through the inner log loop: a key present
before processing is still present afterwards. -/
theorem processLogs_seen_mono (h : String → String) (fr : Bool) (tid : Int)
    (entries seen : List String) (k : String) (hk : k ∈ seen) :
    k ∈ (processLogs h fr tid entries seen).1 := by
  induction entries generalizing seen with
  | nil => simpa [processLogs] using hk
  | cons e rest ih =>
    simp only [processLogs]
    by_cases hmem : h (tribeKey tid e) ∈ seen
    · rw [if_pos hmem]
      exact ih seen hk
    · rw [if_neg hmem]
      exact ih _ (List.mem_cons_of_mem _ hk)

/-- The seen-set only grows through the record loop. -/
theorem processRecords_seen_mono (h : String → String) (fr : Bool)
    (data : List TribeRecord) (seen : List String) (k : String)
    (hk : k ∈ seen) : k ∈ (processRecords h fr data seen).1 := by
  induction data generalizing seen with
  | nil => simpa [processRecords] using hk
  | cons i rest ih =>
    obtain ⟨tidO, logsO⟩ := i
    cases logsO with
    | none => simpa [processRecords] using ih seen hk
    | some logs =>
      cases tidO with
      | none => simpa [processRecords] using ih seen hk
      | some tid =>
        by_cases h0 : tid = 0
        · simpa [processRecords, h0] using ih seen hk
        · simp only [processRecords, if_neg h0]
          exact ih _ (processLogs_seen_mono h fr tid logs seen k hk)

/-- An entry retained by the inner loop was not seen when the loop
started. -/
theorem processLogs_retained_fresh (h : String → String) (fr : Bool)
    (tid : Int) (entries seen : List String) (e : String)
    (he : e ∈ (processLogs h fr tid entries seen).2) :
    h (tribeKey tid e) ∉ seen := by
  induction entries generalizing seen with
  | nil => simp [processLogs] at he
  | cons a rest ih =>
    simp only [processLogs] at he
    by_cases hmem : h (tribeKey tid a) ∈ seen
    · rw [if_pos hmem] at he
      exact ih seen he
    · rw [if_neg hmem] at he
      cases fr with
      | true =>
        simp only [if_pos rfl] at he
        intro hk
        exact ih _ he (List.mem_cons_of_mem _ hk)
      | false =>
        simp only [Bool.false_eq_true, if_neg] at he
        rcases List.mem_cons.mp he with rfl | htail
        · exact hmem
        · intro hk
          exact ih _ htail (List.mem_cons_of_mem _ hk)

/-- Every record of the output payload carries a truthy tribe id, a
non-empty retained log list, and only entries whose key was not in the
seen-set when the record loop started. -/
theorem processRecords_output_shape (h : String → String) (fr : Bool)
    (data : List TribeRecord) (seen : List String) (rec : TribeRecord)
    (hrec : rec ∈ (processRecords h fr data seen).2) :
    ∃ tid l, rec.tribeid = some tid ∧ tid ≠ 0 ∧ rec.logs = some l ∧
      l ≠ [] ∧ ∀ e ∈ l, h (tribeKey tid e) ∉ seen := by
  induction data generalizing seen with
  | nil => simp [processRecords] at hrec
  | cons i rest ih =>
    obtain ⟨tidO, logsO⟩ := i
    cases logsO with
    | none =>
      simp only [processRecords] at hrec
      exact ih seen hrec
    | some logs =>
      cases tidO with
      | none =>
        simp only [processRecords] at hrec
        exact ih seen hrec
      | some tid =>
        by_cases h0 : tid = 0
        · simp only [processRecords, if_pos h0] at hrec
          exact ih seen hrec
        · simp only [processRecords, if_neg h0] at hrec
          by_cases hr2 : (processLogs h fr tid logs seen).2 = []
          · rw [if_pos hr2] at hrec
            obtain ⟨tid', l, h1, h2, h3, h4, h5⟩ := ih _ hrec
            exact ⟨tid', l, h1, h2, h3, h4, fun e hel hk =>
              h5 e hel (processLogs_seen_mono h fr tid logs seen _ hk)⟩
          · rw [if_neg hr2] at hrec
            rcases List.mem_cons.mp hrec with rfl | htail
            · exact ⟨tid, (processLogs h fr tid logs seen).2, rfl, h0, rfl, hr2,
                fun e hel => processLogs_retained_fresh h fr tid logs seen e hel⟩
            · obtain ⟨tid', l, h1, h2, h3, h4, h5⟩ := ih _ htail
              exact ⟨tid', l, h1, h2, h3, h4, fun e hel hk =>
                h5 e hel (processLogs_seen_mono h fr tid logs seen _ hk)⟩

/-- On a first run the inner loop retains nothing. -/
theorem processLogs_first_run_empty (h : String → String) (tid : Int)
    (entries seen : List String) :
    (processLogs h true tid entries seen).2 = [] := by
  induction entries generalizing seen with
  | nil => rfl
  | cons e rest ih =>
    simp only [processLogs]
    by_cases hmem : h (tribeKey tid e) ∈ seen
    · rw [if_pos hmem]
      exact ih seen
    · rw [if_neg hmem]
      simp [ih]

/-- On a first run the record loop produces an empty payload. -/
theorem processRecords_first_run_empty (h : String → String)
    (data : List TribeRecord) (seen : List String) :
    (processRecords h true data seen).2 = [] := by
  induction data generalizing seen with
  | nil => rfl
  | cons i rest ih =>
    obtain ⟨tidO, logsO⟩ := i
    cases logsO with
    | none => simpa [processRecords] using ih seen
    | some logs =>
      cases tidO with
      | none => simpa [processRecords] using ih seen
      | some tid =>
        by_cases h0 : tid = 0
        · simpa [processRecords, h0] using ih seen
        · simp only [processRecords, if_neg h0]
          rw [if_pos (processLogs_first_run_empty h tid logs seen)]
          exact ih _

/-- Every entry of the processed list has its key in the final seen-set. -/
theorem processLogs_key_recorded (h : String → String) (fr : Bool)
    (tid : Int) (entries seen : List String) (e : String) (he : e ∈ entries) :
    h (tribeKey tid e) ∈ (processLogs h fr tid entries seen).1 := by
  induction entries generalizing seen with
  | nil => cases he
  | cons a rest ih =>
    simp only [processLogs]
    by_cases hmem : h (tribeKey tid a) ∈ seen
    · rw [if_pos hmem]
      rcases List.mem_cons.mp he with rfl | htail
      · exact processLogs_seen_mono h fr tid rest seen _ hmem
      · exact ih seen htail
    · rw [if_neg hmem]
      rcases List.mem_cons.mp he with rfl | htail
      · exact processLogs_seen_mono h fr tid rest _ _ (List.mem_cons_self _ _)
      · exact ih _ htail

/-- Every entry of every valid record of the dataset has its key in the
final seen-set produced by the record loop. -/
theorem processRecords_key_recorded (h : String → String) (fr : Bool)
    (data : List TribeRecord) (seen : List String) (i : TribeRecord)
    (tid : Int) (l : List String) (e : String) (hi : i ∈ data)
    (ht : i.tribeid = some tid) (h0 : tid ≠ 0) (hl : i.logs = some l)
    (he : e ∈ l) :
    h (tribeKey tid e) ∈ (processRecords h fr data seen).1 := by
  induction data generalizing seen with
  | nil => cases hi
  | cons j rest ih =>
    rcases List.mem_cons.mp hi with rfl | htail
    · obtain ⟨tidO, logsO⟩ := i
      simp only at ht hl
      subst ht
      subst hl
      simp only [processRecords, if_neg h0]
      exact processRecords_seen_mono h fr rest _ _
        (processLogs_key_recorded h fr tid l seen e he)
    · obtain ⟨tidO, logsO⟩ := j
      cases logsO with
      | none => simpa [processRecords] using ih seen htail
      | some logs =>
        cases tidO with
        | none => simpa [processRecords] using ih seen htail
        | some tid' =>
          by_cases h0' : tid' = 0
          · simpa [processRecords, h0'] using ih seen htail
          · simp only [processRecords, if_neg h0']
            exact ih _ htail

/-- A dataset in which no record contributes entries leaves the seen-set
unchanged. -/
theorem processRecords_no_entries (h : String → String) (fr : Bool)
    (data : List TribeRecord) (seen : List String)
    (hno : data.all contributesNoEntries = true) :
    (processRecords h fr data seen).1 = seen := by
  induction data generalizing seen with
  | nil => rfl
  | cons i rest ih =>
    rw [List.all_cons, Bool.and_eq_true] at hno
    obtain ⟨tidO, logsO⟩ := i
    cases logsO with
    | none => simpa [processRecords] using ih seen hno.2
    | some logs =>
      cases tidO with
      | none => simpa [processRecords] using ih seen hno.2
      | some tid =>
        simp only [contributesNoEntries, Bool.or_eq_true, beq_iff_eq,
          List.isEmpty_iff] at hno
        rcases hno.1 with h0 | hl
        · simpa [processRecords, h0] using ih seen hno.2
        · subst hl
          by_cases h0 : tid = 0
          · simpa [processRecords, h0] using ih seen hno.2
          · simp only [processRecords, if_neg h0, processLogs]
            simpa using ih seen hno.2

/-! ## Claim theorems for the Log Deduplicator -/

/-- C1: over three ingestion cycles of the tribelogs dataset for one
tribe with entry sets {A,B}, {A,B,C}, {A,B,C,D}, the first (baseline)
cycle retains nothing while recording all hashes, cycle 2 retains
exactly C and cycle 3 exactly D; moreover a hash present in the
seen-set survives every later cycle, and every entry delivered by a
cycle had a hash unseen when that cycle started (an already-seen entry
is never re-delivered). -/
theorem c1_tribelog_dedup (h : String → String) (t : Int) (A B C D : String)
    (ht : t ≠ 0)
    (hBA : h (tribeKey t B) ≠ h (tribeKey t A))
    (hCA : h (tribeKey t C) ≠ h (tribeKey t A))
    (hCB : h (tribeKey t C) ≠ h (tribeKey t B))
    (hDA : h (tribeKey t D) ≠ h (tribeKey t A))
    (hDB : h (tribeKey t D) ≠ h (tribeKey t B))
    (hDC : h (tribeKey t D) ≠ h (tribeKey t C)) :
    c1Prop h t A B C D ∧
    (∀ seen data k, k ∈ seen → k ∈ (precache h seen data).1) ∧
    (∀ seen data rec, rec ∈ (precache h seen data).2 →
      ∃ tid l, rec.tribeid = some tid ∧ rec.logs = some l ∧
        ∀ e ∈ l, h (tribeKey tid e) ∉ seen) := by
  refine ⟨?_, ?_, ?_⟩
  · have e1 : precache h [] [⟨some t, some [A, B]⟩] =
        ([h (tribeKey t B), h (tribeKey t A)], []) := by
      simp [precache, processRecords, processLogs, ht, hBA]
    have e2 : precache h [h (tribeKey t B), h (tribeKey t A)]
        [⟨some t, some [A, B, C]⟩] =
        ([h (tribeKey t C), h (tribeKey t B), h (tribeKey t A)],
         [⟨some t, some [C]⟩]) := by
      simp [precache, processRecords, processLogs, ht, hCA, hCB]
    have e3 : precache h [h (tribeKey t C), h (tribeKey t B), h (tribeKey t A)]
        [⟨some t, some [A, B, C, D]⟩] =
        ([h (tribeKey t D), h (tribeKey t C), h (tribeKey t B), h (tribeKey t A)],
         [⟨some t, some [D]⟩]) := by
      simp [precache, processRecords, processLogs, ht, hDA, hDB, hDC]
    simp [c1Prop, e1, e2, e3]
  · intro seen data k hk
    exact processRecords_seen_mono h seen.isEmpty data seen k hk
  · intro seen data rec hrec
    obtain ⟨tid, l, h1, h2, h3, _, h5⟩ :=
      processRecords_output_shape h seen.isEmpty data seen rec hrec
    exact ⟨tid, l, h1, h3, h5⟩

/-- Witness for C1 at the identity hash, tribe 1 and entries A to D. -/
theorem c1_tribelog_dedup_witness :
    ((1 : Int) ≠ 0 ∧
      id (tribeKey 1 "B") ≠ id (tribeKey 1 "A") ∧
      id (tribeKey 1 "C") ≠ id (tribeKey 1 "A") ∧
      id (tribeKey 1 "C") ≠ id (tribeKey 1 "B") ∧
      id (tribeKey 1 "D") ≠ id (tribeKey 1 "A") ∧
      id (tribeKey 1 "D") ≠ id (tribeKey 1 "B") ∧
      id (tribeKey 1 "D") ≠ id (tribeKey 1 "C")) ∧
    (c1Prop id 1 "A" "B" "C" "D" ∧
     (∀ seen data k, k ∈ seen → k ∈ (precache id seen data).1) ∧
     (∀ seen data rec, rec ∈ (precache id seen data).2 →
       ∃ tid l, rec.tribeid = some tid ∧ rec.logs = some l ∧
         ∀ e ∈ l, id (tribeKey tid e) ∉ seen)) :=
  ⟨⟨by decide, by decide, by decide, by decide, by decide, by decide, by decide⟩,
   c1_tribelog_dedup id 1 "A" "B" "C" "D" (by decide) (by decide) (by decide)
     (by decide) (by decide) (by decide) (by decide)⟩

/-- C10: `first_run` is literally the emptiness of the seen-set at
entry, so whenever that set is empty the cycle retains nothing while
recording every encountered hash; and a cycle whose dataset contributes
no log entries leaves the seen-set unchanged (so earlier empty cycles
keep the first-run behavior alive). -/
theorem c10_first_run_from_empty_buffer (h : String → String)
    (seen : List String) (data : List TribeRecord) :
    (seen = [] →
      (precache h seen data).2 = [] ∧
      ∀ i ∈ data, ∀ tid l, i.tribeid = some tid → tid ≠ 0 →
        i.logs = some l → ∀ e ∈ l,
          h (tribeKey tid e) ∈ (precache h seen data).1) ∧
    (data.all contributesNoEntries = true →
      (precache h seen data).1 = seen) := by
  constructor
  · rintro rfl
    constructor
    · exact processRecords_first_run_empty h data []
    · intro i hi tid l ht h0 hl e he
      exact processRecords_key_recorded h _ data [] i tid l e hi ht h0 hl he
  · intro hno
    exact processRecords_no_entries h _ data seen hno

/-- Witness for C10: an empty seen-set yields an empty payload while
recording the hash of the one entry, and a dataset with an empty log
list leaves a non-empty seen-set untouched. -/
theorem c10_first_run_from_empty_buffer_witness :
    ((precache id [] [⟨some 1, some ["A"]⟩]).2 = [] ∧
      id (tribeKey 1 "A") ∈ (precache id [] [⟨some 1, some ["A"]⟩]).1) ∧
    (precache id ["x"] [⟨some 1, some []⟩]).1 = ["x"] :=
  ⟨⟨((c10_first_run_from_empty_buffer id [] [⟨some 1, some ["A"]⟩]).1 rfl).1,
    ((c10_first_run_from_empty_buffer id [] [⟨some 1, some ["A"]⟩]).1 rfl).2
      ⟨some 1, some ["A"]⟩ (List.mem_singleton.mpr rfl) 1 ["A"] rfl (by decide)
      rfl "A" (List.mem_singleton.mpr rfl)⟩,
   (c10_first_run_from_empty_buffer id ["x"] [⟨some 1, some []⟩]).2 (by decide)⟩

/-- C5 counterexample: a record lacking a `logs` list is not passed
through to the output dataset — the deduplication stage drops it (the
seen-set here is non-empty, so this is not first-run suppression). -/
theorem c5_counterexample :
    (precache id ["x"] [⟨some 1, none⟩]).2 = [] ∧
    (⟨some 1, none⟩ : TribeRecord) ∉ (precache id ["x"] [⟨some 1, none⟩]).2 := by
  decide

/-- C5 (amended): every record of the output dataset has a truthy tribe
id and a non-empty log list, so a record lacking a tribe identifier or
a log list is dropped from the output, not passed through. -/
theorem c5_invalid_records_dropped (h : String → String)
    (seen : List String) (data : List TribeRecord) (rec : TribeRecord)
    (hrec : rec ∈ (precache h seen data).2) :
    ∃ tid l, rec.tribeid = some tid ∧ tid ≠ 0 ∧
      rec.logs = some l ∧ l ≠ [] := by
  obtain ⟨tid, l, h1, h2, h3, h4, _⟩ :=
    processRecords_output_shape h seen.isEmpty data seen rec hrec
  exact ⟨tid, l, h1, h2, h3, h4⟩

/-- Witness for the amended C5 on a one-record dataset that is kept. -/
theorem c5_invalid_records_dropped_witness :
    (⟨some 1, some ["A"]⟩ : TribeRecord) ∈
      (precache id ["x"] [⟨some 1, some ["A"]⟩]).2 ∧
    ∃ tid l, (⟨some 1, some ["A"]⟩ : TribeRecord).tribeid = some tid ∧
      tid ≠ 0 ∧ (⟨some 1, some ["A"]⟩ : TribeRecord).logs = some l ∧ l ≠ [] :=
  ⟨by decide, c5_invalid_records_dropped id ["x"] [⟨some 1, some ["A"]⟩]
    ⟨some 1, some ["A"]⟩ (by decide)⟩

/-! ## Claim theorems for the Export Scheduler -/

/-- C2: a trigger that finds `syncing` already true is a no-op for every
possible cycle body (no second export is started and the state is
untouched); when a cycle does run, the body observes the flag set on
entry and the final state has the flag reset on every path, also when
the body raises (second component true). -/
theorem c2_single_flight {α : Type} (body : SyncState α → SyncState α × Bool)
    (s : SyncState α) :
    (s.syncing = true → process_export body s = (s, false)) ∧
    (s.syncing = false →
      ({ s with syncing := true } : SyncState α).syncing = true ∧
      process_export body s =
        ({ (body { s with syncing := true }).1 with syncing := false },
         (body { s with syncing := true }).2) ∧
      (process_export body s).1.syncing = false) := by
  constructor
  · intro hs
    simp [process_export, hs]
  · intro hs
    refine ⟨rfl, by simp [process_export, hs], ?_⟩
    simp [process_export, hs]

/-- Witness for C2: a body that increments a counter and raises; the
busy state is untouched, the idle state runs the body once with the
flag set and ends with the flag reset even though the body raised. -/
theorem c2_single_flight_witness :
    ((SyncState.mk true 7 : SyncState Nat).syncing = true ∧
      process_export (fun st => (⟨st.syncing, st.rest + 1⟩, true))
        (SyncState.mk true 7) = (SyncState.mk true 7, false)) ∧
    ((SyncState.mk false 7 : SyncState Nat).syncing = false ∧
      process_export (fun st => (⟨st.syncing, st.rest + 1⟩, true))
        (SyncState.mk false 7) = (SyncState.mk false 8, true)) :=
  ⟨⟨rfl,
    (c2_single_flight (fun st => (⟨st.syncing, st.rest + 1⟩, true))
      (SyncState.mk true 7)).1 rfl⟩,
   ⟨rfl, by
    have h := ((c2_single_flight (fun st => (⟨st.syncing, st.rest + 1⟩, true))
      (SyncState.mk false 7)).2 rfl).2.1
    simpa using h⟩⟩

/-! ## Claim theorems for the Change Detector (cluster directory) -/

/-- Appending a tracking entry for a different file name does not change
the lookup of an existing name. -/
theorem lookupState_append_ne (st : List (String × Int)) (n n' : String)
    (m : Int) (hne : n' ≠ n) :
    lookupState (st ++ [(n, m)]) n' = lookupState st n' := by
  induction st with
  | nil =>
    have hb : (n == n') = false := beq_eq_false_iff_ne.mpr (Ne.symm hne)
    simp [lookupState, List.find?, hb]
  | cons p rest ih =>
    cases hp : (p.1 == n') with
    | true => simp [lookupState, List.find?, hp]
    | false =>
      simp only [lookupState, List.cons_append, List.find?, hp]
      exact ih

/-- The scan loop reports a modification iff some extension-less file of
the listing is tracked under a different mtime; untracked files are
recorded silently.  Directory listings carry distinct names, hence the
`Nodup` hypothesis. -/
theorem scanFiles_modified_iff (files : List ClusterFile)
    (st : List (String × Int)) (hnd : (files.map (·.name)).Nodup) :
    (scanFiles files st).1 = true ↔
      ∃ f ∈ files, f.suffix = "" ∧
        ∃ m, lookupState st f.name = some m ∧ m ≠ f.mtime := by
  induction files generalizing st with
  | nil => simp [scanFiles]
  | cons f rest ih =>
    rw [List.map_cons, List.nodup_cons] at hnd
    obtain ⟨hf, hnd'⟩ := hnd
    by_cases hs : f.suffix = ""
    · cases hlk : lookupState st f.name with
      | none =>
        rw [show scanFiles (f :: rest) st =
            scanFiles rest (st ++ [(f.name, f.mtime)]) from by
          simp [scanFiles, hs, hlk]]
        rw [ih _ hnd']
        constructor
        · rintro ⟨g, hg, hgs, m, hm, hmm⟩
          have hgne : g.name ≠ f.name := by
            intro hEq
            exact hf (hEq ▸ List.mem_map_of_mem (fun x => x.name) hg)
          rw [lookupState_append_ne _ _ _ _ hgne] at hm
          exact ⟨g, List.mem_cons_of_mem _ hg, hgs, m, hm, hmm⟩
        · rintro ⟨g, hg, hgs, m, hm, hmm⟩
          rcases List.mem_cons.mp hg with rfl | hgr
          · rw [hlk] at hm
            cases hm
          · have hgne : g.name ≠ f.name := by
              intro hEq
              exact hf (hEq ▸ List.mem_map_of_mem (fun x => x.name) hgr)
            refine ⟨g, hgr, hgs, m, ?_, hmm⟩
            rw [lookupState_append_ne _ _ _ _ hgne]
            exact hm
      | some m =>
        by_cases hmt : m = f.mtime
        · rw [show scanFiles (f :: rest) st = scanFiles rest st from by
            simp [scanFiles, hs, hlk, hmt]]
          rw [ih st hnd']
          constructor
          · rintro ⟨g, hg, hgs, m', hm, hmm⟩
            exact ⟨g, List.mem_cons_of_mem _ hg, hgs, m', hm, hmm⟩
          · rintro ⟨g, hg, hgs, m', hm, hmm⟩
            rcases List.mem_cons.mp hg with rfl | hgr
            · rw [hlk] at hm
              cases hm
              exact absurd hmt hmm
            · exact ⟨g, hgr, hgs, m', hm, hmm⟩
        · rw [show scanFiles (f :: rest) st = (true, st) from by
            simp [scanFiles, hs, hlk, hmt]]
          exact iff_of_true rfl ⟨f, List.mem_cons_self _ _, hs, m, hlk, hmt⟩
    · rw [show scanFiles (f :: rest) st = scanFiles rest st from by
        simp [scanFiles, hs]]
      rw [ih st hnd']
      constructor
      · rintro ⟨g, hg, hgs, m, hm, hmm⟩
        exact ⟨g, List.mem_cons_of_mem _ hg, hgs, m, hm, hmm⟩
      · rintro ⟨g, hg, hgs, m, hm, hmm⟩
        rcases List.mem_cons.mp hg with rfl | hgr
        · exact absurd hgs hs
        · exact ⟨g, hgr, hgs, m, hm, hmm⟩

/-- C3 counterexample: with the tracking map already seeded (here,
empty), a new extension-less file in the cluster directory does NOT
make the scan return true — the file is only recorded into the map,
contrary to the claim that a file absent from the map yields true. -/
theorem c3_counterexample :
    (scan_cluster_dir true true [⟨"f", "", 5⟩] (some [])).1 = false ∧
    (scan_cluster_dir true true [⟨"f", "", 5⟩] (some [])).2 =
      some [("f", 5)] := by
  decide

/-- C3 (amended): after the tracking map has been seeded, the scan of
the cluster directory returns true iff some extension-less file already
present in the tracking map has a modification time different from the
cached one; a file absent from the map is recorded into the map and
does not by itself make the scan return true. -/
theorem c3_scan_detects_changed_tracked_files (files : List ClusterFile)
    (st : List (String × Int)) (hnd : (files.map (·.name)).Nodup) :
    (scan_cluster_dir true true files (some st)).1 = true ↔
      ∃ f ∈ files, f.suffix = "" ∧
        ∃ m, lookupState st f.name = some m ∧ m ≠ f.mtime := by
  rw [show (scan_cluster_dir true true files (some st)).1 =
      (scanFiles files st).1 from by simp [scan_cluster_dir]]
  exact scanFiles_modified_iff files st hnd

/-- Witness for the amended C3: one tracked extension-less file whose
mtime changed from 4 to 5 makes the scan return true. -/
theorem c3_scan_detects_changed_tracked_files_witness :
    (([⟨"f", "", 5⟩] : List ClusterFile).map (fun x => x.name)).Nodup ∧
    ((scan_cluster_dir true true [⟨"f", "", 5⟩] (some [("f", 4)])).1 = true ↔
      ∃ g ∈ ([⟨"f", "", 5⟩] : List ClusterFile), g.suffix = "" ∧
        ∃ m, lookupState [("f", 4)] g.name = some m ∧ m ≠ g.mtime) :=
  ⟨by decide,
   c3_scan_detects_changed_tracked_files [⟨"f", "", 5⟩] [("f", 4)] (by decide)⟩

/-! ## Claim theorems for the Output Ingestor -/

/-- C4 counterexample: a file whose bytes persistently fail to parse is
given exactly one parse attempt — not three — before being skipped; the
previously cached value for its key stays in place. -/
theorem c4_counterexample :
    loadFile (fun _ => (none : Option Nat)) (fun _ => true) id ""
      [("players", 7)] ⟨"ASV_Players", 3, "junk"⟩ = (1, [("players", 7)]) ∧
    (1 : Nat) ≠ 3 := by
  decide

/-- C4 (amended): on a decode error the parse is attempted exactly once
(there is no retry), the file is skipped for that cycle, and the
previously cached value for the file's dataset key is left unchanged
and still accessible. -/
theorem c4_parse_failure_single_attempt {π : Type}
    (parse : String → Option π) (truthyP : π → Bool) (pre : π → π)
    (exports : List (String × π)) (f : OutputFile)
    (hsz : f.size ≠ 0) (hp : parse f.content = none) :
    loadFile parse truthyP pre "" exports f = (1, exports) ∧
    getKey (loadFile parse truthyP pre "" exports f).2 (fileKey f.stem) =
      getKey exports (fileKey f.stem) := by
  have h1 : loadFile parse truthyP pre "" exports f = (1, exports) := by
    simp [loadFile, hsz, hp]
  exact ⟨h1, by rw [h1]⟩

/-- Witness for the amended C4 on a concrete non-empty file whose parse
fails. -/
theorem c4_parse_failure_single_attempt_witness :
    (⟨"ASV_Players", 3, "junk"⟩ : OutputFile).size ≠ 0 ∧
    (fun _ : String => (none : Option Nat)) "junk" = none ∧
    (loadFile (fun _ => (none : Option Nat)) (fun _ => true) id ""
        [("players", 7)] ⟨"ASV_Players", 3, "junk"⟩ = (1, [("players", 7)]) ∧
      getKey (loadFile (fun _ => (none : Option Nat)) (fun _ => true) id ""
          [("players", 7)] ⟨"ASV_Players", 3, "junk"⟩).2
        (fileKey "ASV_Players") =
        getKey [("players", 7)] (fileKey "ASV_Players")) :=
  ⟨by decide, rfl,
   c4_parse_failure_single_attempt (fun _ => (none : Option Nat))
     (fun _ => true) id [("players", 7)] ⟨"ASV_Players", 3, "junk"⟩
     (by decide) rfl⟩

/-! ## Claim theorem for the Path Validator -/

/-- C6 (evidence of the code bug): `validate_path` accepts the string
"a|b" although '|' lies outside the allowed character class, because
the regex is anchored only at the start of the string; the function's
own docstring and the spec require every character to be allowed.  The
remaining conjuncts show the model does reject a space, an empty string
and accepts a fully allowed string. -/
theorem c6_validate_path_unanchored :
    validate_path "a|b" = true ∧ allowedChar '|' = false ∧
    validate_path "C:\\maps\\TheIsland.ark" = true ∧
    validate_path "" = false ∧ validate_path "a b" = false := by
  decide

/-! ## Claim theorems for the export cycle state machine -/

/-- Every path through the post-baseline run phase keeps the recorded
baseline and reports a launch. -/
theorem runPhase_launched (a b c : Bool)
    (loadFn : List String → List (String × Nat) → List (String × Nat))
    (s : ExportState) :
    (runPhase a b c loadFn s).1.map_last_modified = s.mapFileMtime ∧
    (runPhase a b c loadFn s).2 = Outcome.launched := by
  by_cases h1 : (!b && !a) = true
  · simp [runPhase, h1]
  · by_cases h2 : c = true
    · simp [runPhase, h1, h2]
    · simp [runPhase, h1, h2]

/-- C9: when the save (map) file does not exist at the start of a cycle,
the cycle returns without attempting any export and triggers the
cache-clear path: every `*.json` file in the output directory is
removed (other files are kept) and the cached datasets are cleared. -/
theorem c9_missing_map_wipes_output (appear runRaises loadRaises : Bool)
    (loadFn : List String → List (String × Nat) → List (String × Nat))
    (s : ExportState) (hmap : s.mapFileExists = false) :
    processExportBody appear runRaises loadRaises loadFn s =
      ({ s with
          outputFiles := s.outputFiles.filter (fun n => !n.endsWith ".json"),
          exports := [] },
       Outcome.wiped) ∧
    (processExportBody appear runRaises loadRaises loadFn s).2 ≠
      Outcome.launched := by
  have h1 : processExportBody appear runRaises loadRaises loadFn s =
      ({ s with
          outputFiles := s.outputFiles.filter (fun n => !n.endsWith ".json"),
          exports := [] },
       Outcome.wiped) := by
    simp [processExportBody, hmap, wipe_output]
  refine ⟨h1, ?_⟩
  rw [h1]
  simp

/-- Witness for C9 on a concrete state with one JSON and one non-JSON
output file and a non-empty dataset cache. -/
theorem c9_missing_map_wipes_output_witness :
    (⟨false, 5, true, false, false, false, 0, none, [], ["a.json", "b.txt"],
        [("players", 1)]⟩ : ExportState).mapFileExists = false ∧
    (processExportBody false false false (fun _ e => e)
        ⟨false, 5, true, false, false, false, 0, none, [], ["a.json", "b.txt"],
          [("players", 1)]⟩ =
        ({ (⟨false, 5, true, false, false, false, 0, none, [],
              ["a.json", "b.txt"], [("players", 1)]⟩ : ExportState) with
            outputFiles := (["a.json", "b.txt"] : List String).filter
              (fun n => !n.endsWith ".json"),
            exports := [] },
         Outcome.wiped) ∧
      (processExportBody false false false (fun _ e => e)
          ⟨false, 5, true, false, false, false, 0, none, [], ["a.json", "b.txt"],
            [("players", 1)]⟩).2 ≠ Outcome.launched) :=
  ⟨rfl,
   c9_missing_map_wipes_output false false false (fun _ e => e)
     ⟨false, 5, true, false, false, false, 0, none, [], ["a.json", "b.txt"],
       [("players", 1)]⟩ rfl⟩

/-- C8: every cycle whose change check passes (outcome `launched`) has
already recorded the save file's current mtime as the new baseline, on
every launch/ingestion path (pid missing, exception raised, ingestion
failed — `appear`, `runRaises`, `loadRaises`, `loadFn` are universally
quantified); a full tick leaves the syncing flag false (back to idle);
and a later cycle with an unchanged mtime and no cluster trigger is a
no-op, so a deterministically failing cycle is retried only on the next
detected change. -/
theorem c8_failed_cycle_baseline (appear runRaises loadRaises : Bool)
    (loadFn : List String → List (String × Nat) → List (String × Nat))
    (s : ExportState)
    (hrun : (processExportBody appear runRaises loadRaises loadFn s).2 =
      Outcome.launched) :
    (processExportBody appear runRaises loadRaises loadFn s).1.map_last_modified =
      s.mapFileMtime ∧
    (exportTick appear runRaises loadRaises loadFn ⟨false, s⟩).1.syncing = false ∧
    (∀ s2 : ExportState, s2.mapFileExists = true → s2.exeFileExists = true →
      s2.map_last_modified ≠ 0 → s2.map_last_modified = s2.mapFileMtime →
      ¬(s2.reprocess = true ∧ s2.clusterDirSet = true ∧
          s2.clusterDirExists = true) →
      processExportBody appear runRaises loadRaises loadFn s2 =
        (s2, Outcome.unchanged)) := by
  refine ⟨?_, ?_, ?_⟩
  · unfold processExportBody at hrun ⊢
    by_cases h1 : (!s.mapFileExists) = true
    · rw [if_pos h1] at hrun
      simp at hrun
    · rw [if_neg h1] at hrun ⊢
      by_cases h2 : (!s.exeFileExists) = true
      · rw [if_pos h2] at hrun
        simp at hrun
      · rw [if_neg h2] at hrun ⊢
        by_cases h3 : s.map_last_modified ≠ 0 ∧ s.map_last_modified = s.mapFileMtime
        · rw [if_pos h3] at hrun ⊢
          by_cases h4 : s.reprocess = true ∧ s.clusterDirSet = true ∧
              s.clusterDirExists = true
          · rw [if_pos h4] at hrun ⊢
            by_cases h5 :
                (!(scan_cluster_dir true true s.clusterFiles s.lastFileStates).1) =
                  true
            · rw [if_pos h5] at hrun
              simp at hrun
            · rw [if_neg h5] at hrun ⊢
              exact (runPhase_launched appear runRaises loadRaises loadFn _).1
          · rw [if_neg h4] at hrun
            simp at hrun
        · rw [if_neg h3] at hrun ⊢
          exact (runPhase_launched appear runRaises loadRaises loadFn s).1
  · simp [exportTick, process_export]
  · intro s2 h1 h2 h3 h4 h5
    simp [processExportBody, h1, h2, h3, h4, h5]
    intro h6
    exact absurd (h4.trans h6) h3

/-- Witness for C8 on a first-cycle state (baseline 0) that launches
with a pid that never appears. -/
theorem c8_failed_cycle_baseline_witness :
    (processExportBody false false false (fun _ e => e)
        ⟨true, 5, true, false, false, false, 0, none, [], [], []⟩).2 =
      Outcome.launched ∧
    ((processExportBody false false false (fun _ e => e)
        ⟨true, 5, true, false, false, false, 0, none, [], [],
          []⟩).1.map_last_modified =
      (⟨true, 5, true, false, false, false, 0, none, [], [],
        []⟩ : ExportState).mapFileMtime ∧
    (exportTick false false false (fun _ e => e)
      ⟨false, ⟨true, 5, true, false, false, false, 0, none, [], [],
        []⟩⟩).1.syncing = false ∧
    (∀ s2 : ExportState, s2.mapFileExists = true → s2.exeFileExists = true →
      s2.map_last_modified ≠ 0 → s2.map_last_modified = s2.mapFileMtime →
      ¬(s2.reprocess = true ∧ s2.clusterDirSet = true ∧
          s2.clusterDirExists = true) →
      processExportBody false false false (fun _ e => e) s2 =
        (s2, Outcome.unchanged))) :=
  ⟨by decide,
   c8_failed_cycle_baseline false false false (fun _ e => e)
     ⟨true, 5, true, false, false, false, 0, none, [], [], []⟩ (by decide)⟩

/-! ## Claim theorems for the affinity mask -/

/-- The options-building loop computes exactly the powers of two of the
CPU indices, in index order. -/
theorem buildOptions_eq (cpus : Nat) :
    buildOptions cpus = (List.range cpus).map (fun i => 2 ^ i) := by
  suffices h : ∀ n : Nat,
      (List.range n).foldl
        (fun st _ =>
          if st.1 = [] then (st.1 ++ [st.2], st.2)
          else (st.1 ++ [st.2 * 2], st.2 * 2))
        (([] : List Nat), 1) =
        ((List.range n).map (fun i => 2 ^ i), 2 ^ (n - 1)) by
    unfold buildOptions
    rw [h cpus]
  intro n
  induction n with
  | zero => simp
  | succ n ih =>
    rw [List.range_succ, List.foldl_append, ih]
    cases n with
    | zero => simp
    | succ m =>
      have hne : ((List.range (m + 1)).map (fun i => 2 ^ i)) ≠ [] := by simp
      simp only [List.foldl_cons, List.foldl_nil, if_neg hne]
      rw [List.range_succ, List.map_append]
      simp [pow_succ]

/-- C7: for `cpus ≥ 1` available CPUs and a thread budget `threads ≥ 1`,
the effective count is `N = min threads cpus` and the mask is the hex
rendering of the sum of `2^i` over the `N` highest CPU indices (the
last `N` indices of `0..cpus-1`); in particular for 4 CPUs and budget 2
the mask is "0xc", selecting the two highest CPUs. -/
theorem c7_affinity_mask_highest_cpus (threads cpus : Nat)
    (ht : 1 ≤ threads) (hc : 1 ≤ cpus) :
    get_affinity_mask threads cpus =
      pyHex ((((List.range cpus).drop (cpus - min threads cpus)).map
        (fun i => 2 ^ i)).sum) ∧
    get_affinity_mask 2 4 = "0xc" := by
  constructor
  · simp only [get_affinity_mask]
    rw [if_neg (by omega : ¬cpus = 0)]
    rw [buildOptions_eq]
    have htc : (if threads > cpus then cpus else threads) = min threads cpus := by
      rw [Nat.min_def]
      by_cases hgt : threads > cpus
      · rw [if_pos hgt, if_neg (by omega)]
      · rw [if_neg hgt, if_pos (by omega)]
    rw [htc]
    have hmin1 : 1 ≤ min threads cpus := le_min ht hc
    unfold pySliceLast
    rw [if_neg (by omega : ¬min threads cpus = 0)]
    rw [List.length_map, List.length_range]
    have hcomm : ((List.range cpus).map (fun i => 2 ^ i)).drop
        (cpus - min threads cpus) =
        ((List.range cpus).drop (cpus - min threads cpus)).map
          (fun i => 2 ^ i) := by
      rw [List.map_drop]
    rw [hcomm]
    have hne : ((List.range cpus).drop (cpus - min threads cpus)).map
        (fun i => 2 ^ i) ≠ [] := by
      apply List.ne_nil_of_length_pos
      rw [List.length_map, List.length_drop, List.length_range]
      omega
    rw [if_pos hne]
  · rfl

/-- Witness for C7 at 4 CPUs and a budget of 2 threads. -/
theorem c7_affinity_mask_highest_cpus_witness :
    1 ≤ 2 ∧ 1 ≤ 4 ∧
    (get_affinity_mask 2 4 =
        pyHex ((((List.range 4).drop (4 - min 2 4)).map (fun i => 2 ^ i)).sum) ∧
      get_affinity_mask 2 4 = "0xc") :=
  ⟨by decide, by decide,
   c7_affinity_mask_highest_cpus 2 4 (by decide) (by decide)⟩
